import Mathlib

/-!
Verification development for `cadvisor_collector.py`: a shallow embedding of
the collector's URL normalization, metric extraction, per-sample
deduplication, collection loop, and CSV-writer drain protocol, together with
theorems about the properties of these functions.
-/

set_option autoImplicit false

namespace CadvisorCollector

/-! ## Characters and Python-style string helpers

The source manipulates Python `str` values with `strip`, `startswith`,
`split("//", 1)`, `in` and `rstrip("/")`.  Strings are modelled as Lean
`String`, with the operations implemented over `List Char`.
-/

/-- The whitespace characters stripped by Python's `str.strip()` (ASCII part). -/
def pySpace (c : Char) : Bool :=
  c == ' ' || c == '\t' || c == '\n' || c == '\r' || c == '\x0b' || c == '\x0c'

/-- Remove trailing characters satisfying `p` (Python's `str.rstrip`). -/
def rstripBy (p : Char → Bool) (l : List Char) : List Char :=
  (l.reverse.dropWhile p).reverse

/-- Python's `str.strip()`: drop leading and trailing whitespace. -/
def stripWs (l : List Char) : List Char :=
  rstripBy pySpace (l.dropWhile pySpace)

/-- `hasPre pre l` models Python's `l.startswith(pre)`. -/
def hasPre : List Char → List Char → Bool
  | [], _ => true
  | _ :: _, [] => false
  | a :: as, b :: bs => a == b && hasPre as bs

/-- `hasSfx suf l` models Python's `l.endswith(suf)`. -/
def hasSfx (suf l : List Char) : Bool :=
  hasPre suf.reverse l.reverse

/-- Characters of the scheme marker `"http://"`. -/
def httpL : List Char := ['h', 't', 't', 'p', ':', '/', '/']

/-- Characters of the scheme marker `"https://"`. -/
def httpsL : List Char := ['h', 't', 't', 'p', 's', ':', '/', '/']

/-- Characters of the default-port suffix `":8080"`. -/
def portL : List Char := [':', '8', '0', '8', '0']

/-- Everything after the first occurrence of `"//"`, or `none` when there is
no occurrence.  Together with `splitTail` this models
`base.split("//", 1)[-1]` (source line 50). -/
def splitTailAux : List Char → Option (List Char)
  | [] => none
  | c :: r =>
    if c = '/' then
      match r with
      | '/' :: r2 => some r2
      | _ => splitTailAux r
    else splitTailAux r

/-- `base.split("//", 1)[-1]`: the part after the first `"//"`, or the whole
string when the marker is absent (Python's `split` then returns `[base]`). -/
def splitTail (l : List Char) : List Char :=
  (splitTailAux l).getD l

/-- Trailing-slash trimming, `base.rstrip("/")` (source line 53). -/
def rstripSlash (l : List Char) : List Char :=
  rstripBy (fun c => c == '/') l

/-- Source lines 44-47: prefix `http://` unless the address already starts
with `http://` or `https://`. -/
def withScheme (hv : List Char) : List Char :=
  if hasPre httpL hv || hasPre httpsL hv then hv else httpL ++ hv

/-- Source lines 49-51: if no `":"` occurs after the `"//"`, append `":8080"`. -/
def withPort (base : List Char) : List Char :=
  if ':' ∈ splitTail base then base else base ++ portL

/-- Modelled from the spec: the "host portion" of an address — the part
after the scheme separator `//` up to the first `/` (claim C8's wording,
spec section 4.3).  The source has no such function: line 50 checks for a
colon anywhere after `//`.  Used only to compare the spec's port rule with
the code's. -/
def hostPortionSpec (l : List Char) : List Char :=
  (splitTail l).takeWhile (fun c => !(c == '/'))

/-- The error message of the `ValueError` raised on a falsy address. -/
def errNoAddress : String := "ValueError: cAdvisor address not configured"

/-- `CAdvisorCollector.get_cadvisor_base_url` (source lines 37-53).
Raising `ValueError` is modelled by `Except.error`.  The emptiness check is
on the address *before* stripping, as in the source (line 39). -/
def get_cadvisor_base_url (addr : String) : Except String String :=
  if addr = "" then .error errNoAddress
  else .ok (String.mk (rstripSlash (withPort (withScheme (stripWs addr.toList)))))

/-! ## Python values

The decoded JSON / Python objects flowing through the collector: `None`,
integers, strings, lists and string-keyed dicts.   Floats appear in the
source only through `float(...)` on the CPU counter and are modelled at the
point of use (`floatTxt`).  Exceptions are modelled with `Except String`.
-/

/-- A Python value as seen by the collector. -/
inductive Value where
  | null
  | vInt (n : Int)
  | vStr (s : String)
  | vList (items : List Value)
  | vDict (items : List (String × Value))

/-- Python truthiness: `None`, `0`, `""`, `[]` and `{}` are falsy. -/
def truthy : Value → Bool
  | .null => false
  | .vInt n => n != 0
  | .vStr s => s != ""
  | .vList items => !items.isEmpty
  | .vDict items => !items.isEmpty

/-- Python's `a or b` (on already-evaluated operands). -/
def pyOr (a b : Value) : Value :=
  if truthy a then a else b

/-- Shape test: is the value a dict? -/
def isDict : Value → Bool
  | .vDict _ => true
  | _ => false

/-- First binding of `key` in an association list (Python dicts are modelled
as association lists with distinct keys). -/
def dictFind : List (String × Value) → String → Option Value
  | [], _ => none
  | (k, v) :: rest, key => if k = key then some v else dictFind rest key

/-- `v.get(key)` distinguishing a missing key (`none`): raises
`AttributeError` when `v` is not a dict, exactly as `.get` on a non-dict
Python object does. -/
def dictGetOpt (v : Value) (key : String) : Except String (Option Value) :=
  match v with
  | .vDict items => .ok (dictFind items key)
  | _ => .error "AttributeError: object has no attribute get"

/-- `v.get(key)` with Python's default `None` for a missing key. -/
def dictGet (v : Value) (key : String) : Except String Value :=
  (dictGetOpt v key).map (fun o => o.getD .null)

/-- Python `for`-iteration over a value: lists yield their items, strings
their characters, dicts their keys; other values raise `TypeError`. -/
def pyIter : Value → Except String (List Value)
  | .vList items => .ok items
  | .vStr s => .ok (s.toList.map (fun c => .vStr (String.mk [c])))
  | .vDict items => .ok (items.map (fun p => .vStr p.1))
  | .null => .error "TypeError: object is not iterable"
  | .vInt _ => .error "TypeError: object is not iterable"

/-- Digit-string parse used by `intStr`. -/
def decDigits (l : List Char) : Option Nat :=
  if l = [] then none
  else if l.all (fun c => c.isDigit) then
    some (l.foldl (fun a c => a * 10 + (c.toNat - 48)) 0)
  else none

/-- Python's `int(s)` on a string: optional surrounding whitespace, optional
sign, at least one digit.  (Digit-group underscores are outside the model;
no claim depends on them.) -/
def intStr (s : String) : Option Int :=
  match stripWs s.toList with
  | '+' :: rest => (decDigits rest).map (fun n => (n : Int))
  | '-' :: rest => (decDigits rest).map (fun n => -(n : Int))
  | l => (decDigits l).map (fun n => (n : Int))

/-- Python's `int(v)`: succeeds on ints and integer strings, raises
(`none`) on `None`, lists, dicts and non-numeric strings. -/
def intOfValue : Value → Option Int
  | .vInt n => some n
  | .vStr s => intStr s
  | _ => none

/-- `int(v)` with the raise modelled as `Except.error`. -/
def toIntE (v : Value) : Except String Int :=
  match intOfValue v with
  | some n => .ok n
  | none => .error "ValueError: invalid int"

/-- Shape test for a simple decimal literal (optional sign, digits with at
most one dot, at least one digit), the strings Python's `float()` accepts.
Exponent forms are outside the model; no claim depends on them. -/
def isDecTxt (l : List Char) : Bool :=
  let body := match l with
    | '+' :: r => r
    | '-' :: r => r
    | r => r
  let intPart := body.takeWhile (fun c => !(c == '.'))
  let rest := body.dropWhile (fun c => !(c == '.'))
  match rest with
  | [] => !intPart.isEmpty && intPart.all (fun c => c.isDigit)
  | _ :: frac =>
    intPart.all (fun c => c.isDigit) && frac.all (fun c => c.isDigit)
      && (!intPart.isEmpty || !frac.isEmpty)

/-- The text that `f"{float(v)}"` contributes to a row: `float()` raises
(`none`) on `None`, lists, dicts and non-numeric strings.  The rendering of
accepted values is an approximation of CPython float formatting (row text is
not inspected by any claim). -/
def floatTxt : Value → Option String
  | .vInt n => some (toString n ++ ".0")
  | .vStr s =>
    let l := stripWs s.toList
    if isDecTxt l then some (String.mk l) else none
  | _ => none

/-! ## Metric Extractor (source lines 55-78) -/

/-- The four running totals of `extract_filesystem_counters`. -/
structure FsTotals where
  total_reads : Int
  total_writes : Int
  total_read_bytes : Int
  total_write_bytes : Int
deriving DecidableEq

/-- `fs_entry.get(k1) or fs_entry.get(k2)` (source lines 59-60). -/
def getAlias2 (e : Value) (k1 k2 : String) : Except String Value := do
  let a ← dictGet e k1
  if truthy a then pure a else dictGet e k2

/-- `fs_entry.get(k1) or fs_entry.get(k2) or fs_entry.get(k3)`
(source lines 61-70). -/
def getAlias3 (e : Value) (k1 k2 k3 : String) : Except String Value := do
  let a ← getAlias2 e k1 k2
  if truthy a then pure a else dictGet e k3

/-- The `try` block of source lines 71-77: the four `+=` statements run in
order; the first failing `int()` conversion aborts the remaining statements
of this entry (`except Exception: continue`), but the increments already
executed are kept. -/
def addCounters (acc : FsTotals) (rv wv rbv wbv : Value) : FsTotals :=
  match intOfValue (pyOr rv (.vInt 0)) with
  | none => acc
  | some r =>
    let acc := { acc with total_reads := acc.total_reads + r }
    match intOfValue (pyOr wv (.vInt 0)) with
    | none => acc
    | some w =>
      let acc := { acc with total_writes := acc.total_writes + w }
      match intOfValue (pyOr rbv (.vInt 0)) with
      | none => acc
      | some rb =>
        let acc := { acc with total_read_bytes := acc.total_read_bytes + rb }
        match intOfValue (pyOr wbv (.vInt 0)) with
        | none => acc
        | some wb => { acc with total_write_bytes := acc.total_write_bytes + wb }

/-- One iteration of the `for fs_entry in filesystem_list` loop (source
lines 58-77).  The four `.get` chains run before the `try` block, so a
non-dict entry raises `AttributeError` out of the whole function. -/
def fsEntryStep (acc : FsTotals) (e : Value) : Except String FsTotals := do
  let rv ← getAlias2 e "reads" "readsCompleted"
  let wv ← getAlias2 e "writes" "writesCompleted"
  let rbv ← getAlias3 e "readBytes" "readbytes" "read_bytes"
  let wbv ← getAlias3 e "writeBytes" "writebytes" "write_bytes"
  pure (addCounters acc rv wv rbv wbv)

/-- `sample.get("filesystem") or sample.get("fs") or []` followed by the
`for` iteration (source lines 56-58): resolves the filesystem list and
enumerates it, propagating `AttributeError`/`TypeError`. -/
def fsEntriesOf (sample : Value) : Except String (List Value) := do
  let a ← dictGet sample "filesystem"
  let ab ← if truthy a then pure a else dictGet sample "fs"
  let fsv := if truthy ab then ab else .vList []
  pyIter fsv

/-- `CAdvisorCollector.extract_filesystem_counters` (source lines 55-78). -/
def extract_filesystem_counters (sample : Value) : Except String FsTotals := do
  let entries ← fsEntriesOf sample
  entries.foldlM fsEntryStep
    { total_reads := 0, total_writes := 0, total_read_bytes := 0, total_write_bytes := 0 }

/-! ## Rendering values into f-strings -/

mutual

/-- Python's `repr` for the modelled values (used by `str` on containers).
Row text built from it is not inspected by any claim. -/
def pyRepr : Value → String
  | .null => "None"
  | .vInt n => toString n
  | .vStr s => "\x27" ++ s ++ "\x27"
  | .vList items => "[" ++ pyReprSeq items ++ "]"
  | .vDict items => "\x7b" ++ pyReprPairs items ++ "\x7d"

/-- Comma-joined `repr`s of list items. -/
def pyReprSeq : List Value → String
  | [] => ""
  | [x] => pyRepr x
  | x :: rest => pyRepr x ++ ", " ++ pyReprSeq rest

/-- Comma-joined `repr`s of dict pairs. -/
def pyReprPairs : List (String × Value) → String
  | [] => ""
  | [(k, v)] => "\x27" ++ k ++ "\x27: " ++ pyRepr v
  | (k, v) :: rest => "\x27" ++ k ++ "\x27: " ++ pyRepr v ++ ", " ++ pyReprPairs rest

end

/-- Python's `str(v)`, as applied by f-string interpolation. -/
def pyStr : Value → String
  | .vStr s => s
  | v => pyRepr v

/-! ## Timestamp parsing (source line 107)

`round(datetime.timestamp(dateutil.parser.isoparse(ts)))` is modelled for
the timestamps the monitoring endpoint emits: `YYYY-MM-DDTHH:MM:SS`, an
optional fraction of 1-6 digits, and a UTC suffix (`Z` or `+00:00`), for
dates from 1970 on.  Other inputs parse to `none`, which the caller treats
the same way as the `except` of source lines 108-109 treats a raise.
`round` is Python's round-half-to-even.
-/

/-- Two decimal digits. -/
def dig2 : List Char → Option (Nat × List Char)
  | a :: b :: r =>
    if a.isDigit && b.isDigit then some ((a.toNat - 48) * 10 + (b.toNat - 48), r)
    else none
  | _ => none

/-- Four decimal digits. -/
def dig4 (l : List Char) : Option (Nat × List Char) := do
  let (hi, r) ← dig2 l
  let (lo, r2) ← dig2 r
  pure (hi * 100 + lo, r2)

/-- A specific separator character. -/
def expectCh (c : Char) : List Char → Option (List Char)
  | x :: r => if x = c then some r else none
  | [] => none

/-- Gregorian leap year. -/
def isLeap (y : Nat) : Bool :=
  y % 4 = 0 && (y % 100 != 0 || y % 400 = 0)

/-- Leap years strictly before year `y`. -/
def leapCount (y : Nat) : Nat :=
  (y - 1) / 4 - (y - 1) / 100 + (y - 1) / 400

/-- Day count of the months before month `m`. -/
def daysBeforeMonth (leap : Bool) (m : Nat) : Nat :=
  let tbl : List Nat :=
    if leap then [0, 31, 60, 91, 121, 152, 182, 213, 244, 274, 305, 335]
    else [0, 31, 59, 90, 120, 151, 181, 212, 243, 273, 304, 334]
  tbl.getD (m - 1) 0

/-- Days in month `m` of year `y`. -/
def daysInMonth (y m : Nat) : Nat :=
  let tbl : List Nat :=
    if isLeap y then [31, 29, 31, 30, 31, 30, 31, 31, 30, 31, 30, 31]
    else [31, 28, 31, 30, 31, 30, 31, 31, 30, 31, 30, 31]
  tbl.getD (m - 1) 0

/-- Days from 1970-01-01 to `y`-`m`-`d` (valid dates, `y ≥ 1970`). -/
def epochDays (y m d : Nat) : Nat :=
  365 * (y - 1970) + (leapCount y - leapCount 1970) + daysBeforeMonth (isLeap y) m + (d - 1)

/-- The optional fractional part: `.` followed by 1-6 digits, returning
microseconds and the remaining characters. -/
def fracMicro : List Char → Option (Nat × List Char)
  | '.' :: r =>
    let ds := r.takeWhile (fun c => c.isDigit)
    let rest := r.dropWhile (fun c => c.isDigit)
    if ds.length = 0 || 6 < ds.length then none
    else
      let v := ds.foldl (fun a c => a * 10 + (c.toNat - 48)) 0
      some (v * 10 ^ (6 - ds.length), rest)
  | r => some (0, r)

/-- Python's `round` (half-to-even) of `sec + micro / 1e6`. -/
def roundHalfEven (sec micro : Nat) : Nat :=
  if micro < 500000 then sec
  else if 500000 < micro then sec + 1
  else if sec % 2 = 0 then sec else sec + 1

/-- `round(datetime.timestamp(dateutil.parser.isoparse(ts)))` for the
modelled timestamp format; `none` models a raise (skipped sample). -/
def parseTsStr (ts : String) : Option Int := do
  let l := ts.toList
  let (y, l) ← dig4 l
  let l ← expectCh '-' l
  let (mo, l) ← dig2 l
  let l ← expectCh '-' l
  let (d, l) ← dig2 l
  let l ← expectCh 'T' l
  let (h, l) ← dig2 l
  let l ← expectCh ':' l
  let (mi, l) ← dig2 l
  let l ← expectCh ':' l
  let (s, l) ← dig2 l
  let (micro, l) ← fracMicro l
  if l = ['Z'] || l = ['+', '0', '0', ':', '0', '0'] then
    if 1970 ≤ y && 1 ≤ mo && mo ≤ 12 && 1 ≤ d && d ≤ daysInMonth y mo
        && h ≤ 23 && mi ≤ 59 && s ≤ 59 then
      let sec := epochDays y mo d * 86400 + h * 3600 + mi * 60 + s
      some ((roundHalfEven sec micro : Nat) : Int)
    else none
  else none

/-! ## Collector Loop state and one collection (source lines 80-154) -/

/-- A deduplication key: `(container_id, sample_ts)` (source line 111). -/
abbrev SampleKey := String × Int

/-- The collector-side state touched by `collect_once`: the `seen_samples`
set (modelled as a duplicate-free list in insertion order) and the rows put
on `write_queue` so far, in order. -/
structure CState where
  seen : List SampleKey
  rows : List String
deriving DecidableEq

/-- `self.seen_samples.add(key)` (source line 114). -/
def addKey (k : SampleKey) (seen : List SampleKey) : List SampleKey :=
  if k ∈ seen then seen else seen ++ [k]

/-- Source lines 103-111: read and parse the sample timestamp and build the
deduplication key.  `.ok none` is a `continue` (falsy or unparseable
timestamp), `.error` a raise (`s` is not a dict). -/
def sampleKeyOf (cid : String) (s : Value) : Except String (Option SampleKey) := do
  let tv ← dictGetOpt s "timestamp"
  let tsv := tv.getD .null
  if truthy tsv then
    match tsv with
    | .vStr str => pure ((parseTsStr str).map (fun k => (cid, k)))
    | _ => pure none
  else pure none

/-- Source lines 97-98: first alias if any, else the last `/`-segment of the
name.  A truthy non-list alias value or a non-string name raises. -/
def serviceNameOf (entry : Value) : Except String String := do
  let av ← dictGet entry "aliases"
  let aliases := pyOr av (.vList [])
  if truthy aliases then
    match aliases with
    | .vList (x :: _) => pure (pyStr x)
    | .vStr s =>
      match s.toList with
      | c :: _ => pure (String.mk [c])
      | [] => .error "IndexError: string index out of range"
    | _ => .error "TypeError: object is not subscriptable"
  else
    let nv ← dictGetOpt entry "name"
    match nv.getD (.vStr "") with
    | .vStr s => pure (String.mk ((s.toList.foldl
        (fun acc c => if c = '/' then [] else c :: acc) []).reverse))
    | _ => .error "AttributeError: split on non-string"

/-- Source line 100: `container_entry.get("spec", {}).get("image", "")`,
rendered by the f-string at line 132. -/
def imageOf (entry : Value) : Except String String := do
  let sd ← dictGetOpt entry "spec"
  let iv ← dictGetOpt (sd.getD (.vDict [])) "image"
  pure (pyStr (iv.getD (.vStr "")))

/-- Source lines 117-135: convert one sample into a CSV line.  Any raise
inside (a failing `float()`/`int()`, `.get` on a non-dict) aborts row
construction *after* the key has already been marked seen. -/
def buildRow (collTs : Int) (svc img : String) (sampleTs : Int) (s : Value) :
    Except String String := do
  let cd ← dictGetOpt s "cpu"
  let cu ← dictGetOpt (cd.getD (.vDict [])) "usage"
  let ct ← dictGetOpt (cu.getD (.vDict [])) "total"
  let cpuTxt ← match ct with
    | none => pure "0.0"
    | some v =>
      match floatTxt v with
      | some t => pure t
      | none => Except.error "ValueError: could not convert to float"
  let md ← dictGetOpt s "memory"
  let mu ← dictGetOpt (md.getD (.vDict [])) "usage"
  let memUsage ← toIntE (mu.getD (.vInt 0))
  let ml ← dictGetOpt (md.getD (.vDict [])) "limit"
  let memLimit ← toIntE (ml.getD (.vInt 0))
  let fs ← extract_filesystem_counters s
  let nd ← dictGetOpt s "network"
  let net := pyOr (nd.getD (.vDict [])) (.vDict [])
  let rx ← toIntE ((← dictGetOpt net "rx_bytes").getD (.vInt 0))
  let tx ← toIntE ((← dictGetOpt net "tx_bytes").getD (.vInt 0))
  let rxp ← toIntE ((← dictGetOpt net "rx_packets").getD (.vInt 0))
  let txp ← toIntE ((← dictGetOpt net "tx_packets").getD (.vInt 0))
  pure (toString collTs ++ "," ++ toString sampleTs ++ "," ++ svc ++ "," ++ img ++ ","
    ++ cpuTxt ++ "," ++ toString memUsage ++ "," ++ toString memLimit ++ ","
    ++ toString fs.total_reads ++ "," ++ toString fs.total_writes ++ ","
    ++ toString fs.total_read_bytes ++ "," ++ toString fs.total_write_bytes ++ ","
    ++ toString rx ++ "," ++ toString tx ++ "," ++ toString rxp ++ ","
    ++ toString txp ++ "\n")

/-- Source lines 102-136, one sample `s`: skip on falsy/unparseable
timestamp, skip if the key was seen, otherwise mark the key seen *then*
build and enqueue the row.  `some e` in the result is an uncaught raise:
the state keeps the mutations made before it. -/
def processSample (collTs : Int) (cid svc img : String) (st : CState) (s : Value) :
    CState × Option String :=
  match sampleKeyOf cid s with
  | .error e => (st, some e)
  | .ok none => (st, none)
  | .ok (some key) =>
    if key ∈ st.seen then (st, none)
    else
      let seen1 := addKey key st.seen
      match buildRow collTs svc img key.2 s with
      | .error e => ({ seen := seen1, rows := st.rows }, some e)
      | .ok line => ({ seen := seen1, rows := st.rows ++ [line] }, none)

/-- The `for s in stats_list` loop: a raise aborts the remaining samples. -/
def processSamples (collTs : Int) (cid svc img : String) :
    CState → List Value → CState × Option String
  | st, [] => (st, none)
  | st, s :: rest =>
    match processSample collTs cid svc img st s with
    | (st1, none) => processSamples collTs cid svc img st1 rest
    | (st1, some e) => (st1, some e)

/-- Source lines 96-136, one container entry: resolve the display name, the
stats list and the image, then process the samples in order. -/
def processContainer (collTs : Int) (st : CState) (cid : String) (entry : Value) :
    CState × Option String :=
  match serviceNameOf entry with
  | .error e => (st, some e)
  | .ok svc =>
    match dictGetOpt entry "stats" with
    | .error e => (st, some e)
    | .ok sv =>
      match imageOf entry with
      | .error e => (st, some e)
      | .ok img =>
        match pyIter (sv.getD (.vList [])) with
        | .error e => (st, some e)
        | .ok stats => processSamples collTs cid svc img st stats

/-- The `for container_id, container_entry in docker_data.items()` loop. -/
def processContainers (collTs : Int) :
    CState → List (String × Value) → CState × Option String
  | st, [] => (st, none)
  | st, (cid, entry) :: rest =>
    match processContainer collTs st cid entry with
    | (st1, none) => processContainers collTs st1 rest
    | (st1, some e) => (st1, some e)

/-- `CAdvisorCollector.collect_once` (source lines 80-136).  The HTTP fetch
and JSON decode are external collaborators (spec section 1); a successful
2xx response is modelled by passing the decoded `snapshot` directly, and
`collection_timestamp` is a parameter.  The URL resolution error of line 89
propagates out, exactly as the `ValueError` does. -/
def collect_once (stopFlag : Bool) (addr : String) (collTs : Int)
    (snapshot : List (String × Value)) (st : CState) : CState × Option String :=
  if stopFlag then (st, none)
  else
    match get_cadvisor_base_url addr with
    | .error e => (st, some e)
    | .ok _ => processContainers collTs st snapshot

/-- `CAdvisorCollector.collect_loop` (source lines 138-154) with the stop
flag never set: each iteration calls `collect_once`, catches any raise and
appends it to the log (`logging.exception`, line 147), then continues.  The
fuel argument bounds how many iterations are observed. -/
def collect_loop (addr : String) (collTs : Int) (snapshot : List (String × Value)) :
    CState → List String → Nat → CState × List String
  | st, log, 0 => (st, log)
  | st, log, n + 1 =>
    match collect_once false addr collTs snapshot st with
    | (st1, none) => collect_loop addr collTs snapshot st1 log n
    | (st1, some e) => collect_loop addr collTs snapshot st1 (log ++ [e]) n

/-! ## Writer and shutdown protocol (source lines 156-215)

`container_queue_writer` writes the header, then pops the queue (blocking
with a 1-second timeout) and appends each popped item until the stop flag is
observed, then drains the remaining queue with non-blocking pops.  `stop()`
sets the flag and puts a sentinel `""` on the queue to unblock a waiting
pop; `f.write("")` appends nothing to the file.

The concurrent interleaving of the collector thread, the `stop()` call and
the writer thread is modelled as a trace of events: `enq line` is
`write_queue.put(line)` (line 136), `setStop` is `stop()` (lines 202-209,
flag plus `""` sentinel), and `pop` is one successful `write_queue.get`
followed by `f.write(item); f.flush()` (lines 172-174 or 181-186); a `pop`
on an empty queue is a `queue.Empty` timeout (a no-op).  After the trace,
`writerDrain` is the post-stop drain loop of lines 179-186, which runs to
`join()` completion (lines 211-215).  The file is the list of written
items, starting with the header (lines 162-166).
-/

/-- One observable event of the collector/stop/writer interleaving. -/
inductive WriterEv where
  | enq (line : String)
  | setStop
  | pop
deriving DecidableEq

/-- The shared state: the delivery queue, the written file (as the list of
strings passed to `f.write`), and the stop flag. -/
structure WState where
  queue : List String
  file : List String
  stopFlag : Bool
deriving DecidableEq

/-- The header row written by `container_queue_writer` (source lines 162-166). -/
def csvHeader : String :=
  "collected,timestamp,service,image,cpu_total,memory_usage,memory_limit,"
    ++ "reads,writes,readBytes,writeBytes,rx_bytes,tx_bytes,rx_packets,tx_packets\n"

/-- The state right after the writer wrote the header: empty queue, header
in the file, stop flag clear. -/
def writerInit : WState :=
  { queue := [], file := [csvHeader], stopFlag := false }

/-- Effect of one event on the shared state. -/
def writerStep (st : WState) : WriterEv → WState
  | .enq line => { st with queue := st.queue ++ [line] }
  | .setStop => { st with stopFlag := true, queue := st.queue ++ [""] }
  | .pop =>
    match st.queue with
    | [] => st
    | line :: rest => { st with queue := rest, file := st.file ++ [line] }

/-- Run a trace of events. -/
def writerRun (st : WState) (evs : List WriterEv) : WState :=
  evs.foldl writerStep st

/-- The post-stop drain loop (source lines 179-186): pop and write until
the queue is empty. -/
def writerDrain (st : WState) : WState :=
  { queue := [], file := st.file ++ st.queue, stopFlag := st.stopFlag }

/-- The items a trace puts on the queue, in order; `stop()` contributes its
`""` sentinel. -/
def enqueuedOf : List WriterEv → List String
  | [] => []
  | .enq line :: r => line :: enqueuedOf r
  | .setStop :: r => "" :: enqueuedOf r
  | .pop :: r => enqueuedOf r

/-! ## Lemmas about the string helpers -/

theorem dropWhile_eq_self_of_false {p : Char → Bool} {l : List Char}
    (h : ∀ c ∈ l, p c = false) : l.dropWhile p = l := by
  cases l with
  | nil => rfl
  | cons a as => simp [List.dropWhile_cons, h a (List.mem_cons_self a as)]

theorem mem_of_mem_dropWhile {p : Char → Bool} {l : List Char} {c : Char}
    (h : c ∈ l.dropWhile p) : c ∈ l :=
  (List.dropWhile_sublist p).subset h

theorem mem_dropWhile_of_mem {p : Char → Bool} {c : Char} (hpc : p c = false) :
    ∀ {l : List Char}, c ∈ l → c ∈ l.dropWhile p := by
  intro l
  induction l with
  | nil => intro h; exact absurd h (List.not_mem_nil c)
  | cons a as ih =>
    intro hc
    rw [List.dropWhile_cons]
    by_cases hpa : p a = true
    · rw [if_pos hpa]
      rcases List.mem_cons.mp hc with h | h
      · subst h; rw [hpc] at hpa; exact absurd hpa (by simp)
      · exact ih h
    · rw [if_neg hpa]; exact hc

theorem dropWhile_append_of_ne_nil {p : Char → Bool} {xs ys : List Char}
    (h : xs.dropWhile p ≠ []) :
    (xs ++ ys).dropWhile p = xs.dropWhile p ++ ys := by
  rw [List.dropWhile_append, if_neg (by simpa [List.isEmpty_iff] using h)]

theorem dropWhile_idem {p : Char → Bool} {l : List Char} :
    (l.dropWhile p).dropWhile p = l.dropWhile p := by
  induction l with
  | nil => rfl
  | cons a as ih =>
    rw [List.dropWhile_cons]
    by_cases h : p a = true
    · rw [if_pos h]; exact ih
    · rw [if_neg h, List.dropWhile_cons, if_neg h]

theorem rstripBy_idem {p : Char → Bool} {l : List Char} :
    rstripBy p (rstripBy p l) = rstripBy p l := by
  unfold rstripBy
  rw [List.reverse_reverse, dropWhile_idem]

theorem rstripBy_append_of_mem {p : Char → Bool} {b : List Char} {c : Char}
    (hc : c ∈ b) (hpc : p c = false) (a : List Char) :
    rstripBy p (a ++ b) = a ++ rstripBy p b := by
  have h1 : b.reverse.dropWhile p ≠ [] :=
    List.ne_nil_of_mem (mem_dropWhile_of_mem hpc (List.mem_reverse.mpr hc))
  unfold rstripBy
  rw [List.reverse_append, dropWhile_append_of_ne_nil h1, List.reverse_append,
    List.reverse_reverse]

theorem mem_rstripBy_of_mem {p : Char → Bool} {l : List Char} {c : Char}
    (hc : c ∈ l) (hpc : p c = false) : c ∈ rstripBy p l := by
  unfold rstripBy
  rw [List.mem_reverse]
  exact mem_dropWhile_of_mem hpc (List.mem_reverse.mpr hc)

theorem mem_of_mem_rstripBy {p : Char → Bool} {l : List Char} {c : Char}
    (h : c ∈ rstripBy p l) : c ∈ l := by
  unfold rstripBy at h
  rw [List.mem_reverse] at h
  exact List.mem_reverse.mp (mem_of_mem_dropWhile h)

theorem rstripBy_append_single {p : Char → Bool} {c : Char} (h : p c = false)
    (l : List Char) : rstripBy p (l ++ [c]) = l ++ [c] := by
  unfold rstripBy
  rw [List.reverse_append]
  simp [List.dropWhile_cons, h]

theorem stripWs_eq_self {l : List Char} (h : ∀ c ∈ l, pySpace c = false) :
    stripWs l = l := by
  unfold stripWs rstripBy
  rw [dropWhile_eq_self_of_false h,
    dropWhile_eq_self_of_false (fun c hc => h c (List.mem_reverse.mp hc)),
    List.reverse_reverse]

theorem hasPre_append (p r : List Char) : hasPre p (p ++ r) = true := by
  induction p with
  | nil => rfl
  | cons a as ih => simp [hasPre, ih]

theorem exists_of_hasPre : ∀ {p l : List Char}, hasPre p l = true → ∃ r, l = p ++ r := by
  intro p
  induction p with
  | nil => exact fun {l} _ => ⟨l, rfl⟩
  | cons a as ih =>
    intro l h
    cases l with
    | nil => exact absurd h (by simp [hasPre])
    | cons b bs =>
      simp only [hasPre, Bool.and_eq_true, beq_iff_eq] at h
      obtain ⟨rfl, h2⟩ := h
      obtain ⟨r, rfl⟩ := ih h2
      exact ⟨r, rfl⟩

theorem splitTailAux_http (x : List Char) : splitTailAux (httpL ++ x) = some x := rfl

theorem splitTailAux_https (x : List Char) : splitTailAux (httpsL ++ x) = some x := rfl

theorem splitTail_scheme {sch : List Char} (h : sch = httpL ∨ sch = httpsL)
    (rest : List Char) : splitTail (sch ++ rest) = rest := by
  rcases h with rfl | rfl
  · rw [splitTail, splitTailAux_http]; rfl
  · rw [splitTail, splitTailAux_https]; rfl

/-- The normalized output always has the shape `scheme ++ rest` with a colon
after the scheme separator. -/
theorem normOut_shape (hv : List Char) :
    ∃ sch rest, (sch = httpL ∨ sch = httpsL) ∧
      rstripSlash (withPort (withScheme hv)) = sch ++ rest ∧ ':' ∈ rest := by
  have hcolon : (fun c => c == '/') ':' = false := by decide
  obtain ⟨sch, r0, hsch, hws⟩ :
      ∃ sch r0, (sch = httpL ∨ sch = httpsL) ∧ withScheme hv = sch ++ r0 := by
    unfold withScheme
    by_cases h : (hasPre httpL hv || hasPre httpsL hv) = true
    · rw [if_pos h]
      rcases Bool.or_eq_true_iff.mp h with h1 | h1
      · obtain ⟨r, hr⟩ := exists_of_hasPre h1
        exact ⟨httpL, r, Or.inl rfl, hr⟩
      · obtain ⟨r, hr⟩ := exists_of_hasPre h1
        exact ⟨httpsL, r, Or.inr rfl, hr⟩
    · rw [if_neg h]
      exact ⟨httpL, hv, Or.inl rfl, rfl⟩
  rw [hws]
  unfold withPort
  rw [splitTail_scheme hsch]
  by_cases hc : ':' ∈ r0
  · rw [if_pos hc]
    refine ⟨sch, rstripBy (fun c => c == '/') r0, hsch, ?_, ?_⟩
    · exact rstripBy_append_of_mem hc hcolon sch
    · exact mem_rstripBy_of_mem hc hcolon
  · rw [if_neg hc]
    refine ⟨sch, r0 ++ portL, hsch, ?_, ?_⟩
    · have : sch ++ r0 ++ portL = (sch ++ r0 ++ [':', '8', '0', '8']) ++ ['0'] := by
        simp [portL]
      rw [rstripSlash, this,
        @rstripBy_append_single (fun c => c == '/') '0' (by decide)
          (sch ++ r0 ++ [':', '8', '0', '8'])]
      simp [portL]
    · simp [portL]

/-- Every character of the normalized output comes from the input, the
`http://` marker, or the `:8080` suffix. -/
theorem normOut_mem {hv : List Char} {c : Char}
    (h : c ∈ rstripSlash (withPort (withScheme hv))) :
    c ∈ hv ∨ c ∈ httpL ∨ c ∈ portL := by
  have h1 : c ∈ withPort (withScheme hv) := mem_of_mem_rstripBy h
  have h2 : c ∈ withScheme hv ∨ c ∈ portL := by
    unfold withPort at h1
    by_cases hc : ':' ∈ splitTail (withScheme hv)
    · rw [if_pos hc] at h1; exact Or.inl h1
    · rw [if_neg hc] at h1
      exact List.mem_append.mp h1
  rcases h2 with h2 | h2
  · unfold withScheme at h2
    by_cases hs : (hasPre httpL hv || hasPre httpsL hv) = true
    · rw [if_pos hs] at h2; exact Or.inl h2
    · rw [if_neg hs] at h2
      rcases List.mem_append.mp h2 with h3 | h3
      · exact Or.inr (Or.inl h3)
      · exact Or.inl h3
  · exact Or.inr (Or.inr h2)

/-! ## Claims C7 and C8: URL normalization -/

/-- C7, counterexample: normalization is *not* idempotent for every
non-empty address.  For `"http://host:80 /"` (whitespace before a trailing
slash) the first normalization yields `"http://host:80 "`, and normalizing
that output again yields the different string `"http://host:80"` — the
second pass strips the whitespace the first pass exposed. -/
theorem c7_counterexample :
    get_cadvisor_base_url "http://host:80 /" = .ok "http://host:80 " ∧
    get_cadvisor_base_url "http://host:80 " = .ok "http://host:80" ∧
    ("http://host:80 " : String) ≠ "http://host:80" :=
  ⟨rfl, rfl, by decide⟩

/-- C7 (amended): for every non-empty address containing no whitespace
character, normalization applied to its own output yields the same string;
in particular an address that already specifies a scheme and has a colon
after the scheme separator is returned unchanged apart from trailing-slash
trimming. -/
theorem c7_normalization_idem (s t : String) (hne : s ≠ "")
    (hws : ∀ c ∈ s.toList, pySpace c = false)
    (hok : get_cadvisor_base_url s = .ok t) :
    get_cadvisor_base_url t = .ok t ∧
      ((hasPre httpL s.toList || hasPre httpsL s.toList) = true →
        ':' ∈ splitTail s.toList → t = String.mk (rstripSlash s.toList)) := by
  rw [get_cadvisor_base_url, if_neg hne, stripWs_eq_self hws] at hok
  have ht : t = String.mk (rstripSlash (withPort (withScheme s.toList))) :=
    (Except.ok.inj hok).symm
  have htX : t.toList = rstripSlash (withPort (withScheme s.toList)) := by
    rw [ht]; rfl
  obtain ⟨sch, rest, hsch, hout, hcol⟩ := normOut_shape s.toList
  have htl : t.toList = sch ++ rest := by rw [htX, hout]
  constructor
  · have htne : t ≠ "" := by
      intro h0
      have h1 : t.toList = [] := by rw [h0]; rfl
      rw [htl] at h1
      rcases hsch with rfl | rfl <;> simp [httpL, httpsL] at h1
    rw [get_cadvisor_base_url, if_neg htne]
    have hws2 : ∀ c ∈ t.toList, pySpace c = false := by
      intro c hc
      rw [htX] at hc
      rcases normOut_mem hc with h | h | h
      · exact hws c h
      · exact (by decide : ∀ x ∈ httpL, pySpace x = false) c h
      · exact (by decide : ∀ x ∈ portL, pySpace x = false) c h
    have hpre : (hasPre httpL t.toList || hasPre httpsL t.toList) = true := by
      rw [htl]
      rcases hsch with rfl | rfl <;> simp [hasPre_append]
    have h1 : withScheme t.toList = t.toList := by
      unfold withScheme
      rw [if_pos hpre]
    have h2 : withPort t.toList = t.toList := by
      rw [htl]
      unfold withPort
      rw [splitTail_scheme hsch rest, if_pos hcol]
    have h3 : rstripSlash t.toList = t.toList := by
      rw [htX]
      exact rstripBy_idem
    rw [stripWs_eq_self hws2, h1, h2, h3]
    rfl
  · intro hpre hcol2
    have e1 : withScheme s.toList = s.toList := by
      unfold withScheme
      rw [if_pos hpre]
    have e2 : withPort s.toList = s.toList := by
      unfold withPort
      rw [if_pos hcol2]
    rw [ht, e1, e2]

/-- C7 witness: the hypotheses of `c7_normalization_idem` hold at the
already-normalized address `"http://host:9090/"`, and both conclusions
evaluate there. -/
theorem c7_normalization_idem_witness :
    get_cadvisor_base_url "http://host:9090" = .ok "http://host:9090" ∧
      ("http://host:9090" : String) = String.mk (rstripSlash "http://host:9090/".toList) := by
  have h := c7_normalization_idem "http://host:9090/" "http://host:9090"
    (by decide) (by decide) rfl
  exact ⟨h.1, h.2 (by decide) (by decide)⟩

/-- C8, counterexample: the code does not append the default port whenever
the *host portion* lacks one; it checks for a colon anywhere after `//`.
For `"localhost/a:1"` the host portion `"localhost"` has no port, yet the
result `"http://localhost/a:1"` has no `":8080"` appended — the colon in
the path suppressed it. -/
theorem c8_counterexample :
    get_cadvisor_base_url "localhost/a:1" = .ok "http://localhost/a:1" ∧
    hostPortionSpec ("http://localhost/a:1".toList) = "localhost".toList ∧
    (':' ∈ hostPortionSpec ("http://localhost/a:1".toList) → False) ∧
    hasSfx portL ("http://localhost/a:1".toList) = false :=
  ⟨rfl, rfl, by decide, by decide⟩

/-- C8 (amended): for an address with no scheme the normalizer prefixes
`http://`; when no colon is present anywhere in the stripped address
(host *or* path) it appends the default port `:8080`; trailing slashes are
trimmed.  Concretely `"localhost"` normalizes to
`"http://localhost:8080"` and `"http://host:9090"` is unchanged apart from
trailing-slash trimming. -/
theorem rstripSlash_append_of_colon {b : List Char} (hc : ':' ∈ b) (a : List Char) :
    rstripSlash (a ++ b) = a ++ rstripSlash b :=
  rstripBy_append_of_mem hc (by decide) a

theorem rstripSlash_append_portL (l : List Char) :
    rstripSlash (l ++ portL) = l ++ portL := by
  show rstripBy (fun c => c == '/') (l ++ portL) = l ++ portL
  have e : l ++ portL = (l ++ [':', '8', '0', '8']) ++ ['0'] := by simp [portL]
  rw [e]
  exact @rstripBy_append_single (fun c => c == '/') '0' (by decide)
    (l ++ [':', '8', '0', '8'])

theorem c8_default_port (s t : String) (hne : s ≠ "")
    (hnos : (hasPre httpL (stripWs s.toList) || hasPre httpsL (stripWs s.toList)) = false)
    (hok : get_cadvisor_base_url s = .ok t) :
    hasPre httpL t.toList = true ∧
      (':' ∉ stripWs s.toList → ∃ u, t.toList = u ++ portL) ∧
      get_cadvisor_base_url "localhost" = .ok "http://localhost:8080" ∧
      get_cadvisor_base_url "http://host:9090" = .ok "http://host:9090" ∧
      get_cadvisor_base_url "http://host:9090///" = .ok "http://host:9090" := by
  rw [get_cadvisor_base_url, if_neg hne] at hok
  have ht : t = String.mk (rstripSlash (withPort (withScheme (stripWs s.toList)))) :=
    (Except.ok.inj hok).symm
  have htX : t.toList = rstripSlash (withPort (withScheme (stripWs s.toList))) := by
    rw [ht]; rfl
  have hsch : withScheme (stripWs s.toList) = httpL ++ stripWs s.toList := by
    unfold withScheme
    rw [if_neg (by rw [hnos]; exact Bool.false_ne_true)]
  have hnoport : ':' ∉ stripWs s.toList →
      t.toList = (httpL ++ stripWs s.toList) ++ portL := by
    intro hc
    have e1 : withPort (httpL ++ stripWs s.toList)
        = (httpL ++ stripWs s.toList) ++ portL := by
      unfold withPort
      rw [splitTail_scheme (Or.inl rfl) (stripWs s.toList), if_neg hc]
    rw [htX, hsch, e1, rstripSlash_append_portL]
  refine ⟨?_, fun hc => ⟨httpL ++ stripWs s.toList, hnoport hc⟩, rfl, rfl, rfl⟩
  by_cases hc : ':' ∈ stripWs s.toList
  · have e1 : withPort (httpL ++ stripWs s.toList) = httpL ++ stripWs s.toList := by
      unfold withPort
      rw [splitTail_scheme (Or.inl rfl) (stripWs s.toList), if_pos hc]
    rw [htX, hsch, e1, rstripSlash_append_of_colon hc httpL]
    exact hasPre_append httpL _
  · rw [hnoport hc, List.append_assoc]
    exact hasPre_append httpL _

/-- C8 witness: the hypotheses of `c8_default_port` hold at the bare
hostname `"myhost"`, where the port suffix is indeed appended. -/
theorem c8_default_port_witness :
    hasPre httpL ("http://myhost:8080" : String).toList = true ∧
      ∃ u, ("http://myhost:8080" : String).toList = u ++ portL := by
  have h := c8_default_port "myhost" "http://myhost:8080" (by decide) (by decide) rfl
  exact ⟨h.1, h.2.1 (by decide)⟩

/-! ## Lemmas about the Metric Extractor -/

theorem pyOr_pos {a : Value} (h : truthy a = true) (b : Value) : pyOr a b = a := by
  unfold pyOr
  rw [if_pos h]

theorem pyOr_neg {a : Value} (h : truthy a = false) (b : Value) : pyOr a b = b := by
  unfold pyOr
  rw [if_neg (by rw [h]; exact Bool.false_ne_true)]

theorem getAlias2_dict (items : List (String × Value)) (k1 k2 : String) :
    getAlias2 (.vDict items) k1 k2
      = .ok (pyOr ((dictFind items k1).getD .null) ((dictFind items k2).getD .null)) := by
  show (if truthy ((dictFind items k1).getD .null) = true
        then (pure ((dictFind items k1).getD .null) : Except String Value)
        else dictGet (.vDict items) k2)
      = .ok (pyOr ((dictFind items k1).getD .null) ((dictFind items k2).getD .null))
  generalize (dictFind items k1).getD Value.null = v1
  by_cases h : truthy v1 = true
  · rw [if_pos h, pyOr_pos h]
    rfl
  · have h' : truthy v1 = false := by simpa using h
    rw [if_neg h, pyOr_neg h']
    rfl

theorem getAlias3_dict (items : List (String × Value)) (k1 k2 k3 : String) :
    getAlias3 (.vDict items) k1 k2 k3
      = .ok (pyOr (pyOr ((dictFind items k1).getD .null) ((dictFind items k2).getD .null))
          ((dictFind items k3).getD .null)) := by
  unfold getAlias3
  rw [getAlias2_dict]
  show (if truthy (pyOr ((dictFind items k1).getD .null) ((dictFind items k2).getD .null)) = true
        then (pure (pyOr ((dictFind items k1).getD .null) ((dictFind items k2).getD .null))
          : Except String Value)
        else dictGet (.vDict items) k3)
      = _
  generalize pyOr ((dictFind items k1).getD Value.null) ((dictFind items k2).getD Value.null) = v12
  by_cases h : truthy v12 = true
  · rw [if_pos h, pyOr_pos h]
    rfl
  · have h' : truthy v12 = false := by simpa using h
    rw [if_neg h, pyOr_neg h']
    rfl

theorem fsEntryStep_dict (acc : FsTotals) (items : List (String × Value)) :
    fsEntryStep acc (.vDict items)
      = .ok (addCounters acc
          (pyOr ((dictFind items "reads").getD .null)
            ((dictFind items "readsCompleted").getD .null))
          (pyOr ((dictFind items "writes").getD .null)
            ((dictFind items "writesCompleted").getD .null))
          (pyOr (pyOr ((dictFind items "readBytes").getD .null)
            ((dictFind items "readbytes").getD .null))
            ((dictFind items "read_bytes").getD .null))
          (pyOr (pyOr ((dictFind items "writeBytes").getD .null)
            ((dictFind items "writebytes").getD .null))
            ((dictFind items "write_bytes").getD .null))) := by
  unfold fsEntryStep
  rw [getAlias2_dict, getAlias2_dict, getAlias3_dict, getAlias3_dict]
  rfl

theorem foldlM_fsEntryStep_ok : ∀ (es : List Value) (acc : FsTotals),
    (∀ e ∈ es, isDict e = true) → ∃ t, es.foldlM fsEntryStep acc = .ok t := by
  intro es
  induction es with
  | nil => exact fun acc _ => ⟨acc, rfl⟩
  | cons e rest ih =>
    intro acc h
    have he : isDict e = true := h e (List.mem_cons_self e rest)
    obtain ⟨items, rfl⟩ : ∃ items, e = .vDict items := by
      cases e <;> simp [isDict] at he ⊢
    obtain ⟨t2, ht2⟩ := ih (addCounters acc _ _ _ _)
      (fun x hx => h x (List.mem_cons_of_mem _ hx))
    exact ⟨t2, by rw [List.foldlM_cons, fsEntryStep_dict]; exact ht2⟩

/-- Evaluation of the running totals when the value found for `reads` is an
integer `n` (directly or, when `n = 0`, via the fallthrough to a falsy
second alias): the increment is `n` either way. -/
theorem intOfValue_alias_int (n : Int) (w : Value) (hw : truthy w = false) :
    intOfValue (pyOr (pyOr (.vInt n) w) (.vInt 0)) = some n := by
  by_cases h : n = 0
  · subst h
    rw [pyOr_neg (by decide) w, pyOr_neg hw (.vInt 0)]
    rfl
  · have hn : truthy (.vInt n) = true := by simp [truthy, h]
    rw [pyOr_pos hn w, pyOr_pos hn (.vInt 0)]
    rfl

theorem intOfValue_pyOr_int (n : Int) : intOfValue (pyOr (.vInt n) (.vInt 0)) = some n := by
  by_cases h : n = 0
  · subst h; rfl
  · have hn : truthy (.vInt n) = true := by simp [truthy, h]
    rw [pyOr_pos hn (.vInt 0)]
    rfl

/-- Evaluation of the `try` block when every field converts. -/
theorem addCounters_all (acc : FsTotals) (rv wv rbv wbv : Value) (r w rb wb : Int)
    (h1 : intOfValue (pyOr rv (.vInt 0)) = some r)
    (h2 : intOfValue (pyOr wv (.vInt 0)) = some w)
    (h3 : intOfValue (pyOr rbv (.vInt 0)) = some rb)
    (h4 : intOfValue (pyOr wbv (.vInt 0)) = some wb) :
    addCounters acc rv wv rbv wbv
      = { total_reads := acc.total_reads + r, total_writes := acc.total_writes + w,
          total_read_bytes := acc.total_read_bytes + rb,
          total_write_bytes := acc.total_write_bytes + wb } := by
  unfold addCounters
  rw [h1, h2, h3, h4]

/-- Evaluation of the `try` block when the `writes` conversion raises: the
`reads` increment already happened and is kept; the rest of the entry is
dropped. -/
theorem addCounters_stop_writes (acc : FsTotals) (rv wv rbv wbv : Value) (r : Int)
    (h1 : intOfValue (pyOr rv (.vInt 0)) = some r)
    (h2 : intOfValue (pyOr wv (.vInt 0)) = none) :
    addCounters acc rv wv rbv wbv = { acc with total_reads := acc.total_reads + r } := by
  unfold addCounters
  rw [h1, h2]

/-! ## Claims C3, C5 and C6: the Metric Extractor -/

/-- C3, counterexample: `extract_filesystem_counters` is *not* total.  A
filesystem list with a non-dict device entry raises `AttributeError` from
`fs_entry.get(...)` (source line 59), which is outside the `try` block of
lines 71-77 and so propagates out of the function. -/
theorem c3_counterexample :
    extract_filesystem_counters (.vDict [("filesystem", .vList [.vInt 42])])
      = .error "AttributeError: object has no attribute get" := rfl

/-- C3 (amended): the extractor never raises provided the sample is a value
whose resolved filesystem field enumerates to a list of dict entries; for
such input every malformed *field* degrades to zero or skips, but a
non-dict device entry or a non-iterable filesystem value raises. -/
theorem c3_extractor_totality (sample : Value) (es : List Value)
    (h1 : fsEntriesOf sample = .ok es)
    (h2 : ∀ e ∈ es, isDict e = true) :
    ∃ t, extract_filesystem_counters sample = .ok t := by
  unfold extract_filesystem_counters
  rw [h1]
  obtain ⟨t, ht⟩ := foldlM_fsEntryStep_ok es
    { total_reads := 0, total_writes := 0, total_read_bytes := 0, total_write_bytes := 0 } h2
  exact ⟨t, ht⟩

/-- C3 witness: a dict sample whose filesystem entries are all dicts
satisfies the hypotheses, and the extractor returns a value there. -/
theorem c3_extractor_totality_witness :
    fsEntriesOf (.vDict [("filesystem", .vList [.vDict [("reads", .vInt 1)], .vDict []])])
      = .ok [.vDict [("reads", .vInt 1)], .vDict []] ∧
    ∃ t, extract_filesystem_counters
      (.vDict [("filesystem", .vList [.vDict [("reads", .vInt 1)], .vDict []])]) = .ok t :=
  ⟨rfl, c3_extractor_totality _ _ rfl (by decide)⟩

/-- C5, counterexample: a device entry whose `writes` field fails to parse
does *not* have its whole contribution skipped: the `reads` increment of
source line 72 has already executed when line 73 raises, so
`{reads: 3, writes: "x"}` contributes 3 to the reads total (the claim
predicts 0). -/
theorem c5_counterexample :
    extract_filesystem_counters (.vDict [("filesystem", .vList
        [.vDict [("reads", .vInt 3), ("writes", .vStr "x")]])])
      = .ok { total_reads := 3, total_writes := 0, total_read_bytes := 0,
              total_write_bytes := 0 } ∧ (3 : Int) ≠ 0 :=
  ⟨rfl, by decide⟩

/-- C5 (amended): for a device entry whose fields cause a parse error, the
increments *before* the failing field are kept and only the increments from
the failing field onward are skipped, while the remaining devices in the
batch are still summed: `[{reads: r1, writes: w1-bad}, {reads: 4,
writes: 5, readBytes: 6, writeBytes: 7}]` totals `(r1+4, 5, 6, 7)`. -/
theorem c5_partial_device (r1 : Int) (w1 : String)
    (hw1 : w1 ≠ "") (hwbad : intStr w1 = none) :
    extract_filesystem_counters (.vDict [("filesystem", .vList
        [.vDict [("reads", .vInt r1), ("writes", .vStr w1)],
         .vDict [("reads", .vInt 4), ("writes", .vInt 5),
                 ("readBytes", .vInt 6), ("writeBytes", .vInt 7)]])])
      = .ok { total_reads := r1 + 4, total_writes := 5, total_read_bytes := 6,
              total_write_bytes := 7 } := by
  have hw' : truthy (Value.vStr w1) = true := by simp [truthy, hw1]
  have hwv : intOfValue (pyOr (pyOr (.vStr w1) .null) (.vInt 0)) = none := by
    rw [pyOr_pos hw' Value.null, pyOr_pos hw' (Value.vInt 0)]
    exact hwbad
  have hstep1 : fsEntryStep
      { total_reads := 0, total_writes := 0, total_read_bytes := 0, total_write_bytes := 0 }
      (.vDict [("reads", .vInt r1), ("writes", .vStr w1)])
      = .ok { total_reads := 0 + r1, total_writes := 0, total_read_bytes := 0,
              total_write_bytes := 0 } := by
    rw [fsEntryStep_dict]
    show Except.ok (addCounters
        { total_reads := 0, total_writes := 0, total_read_bytes := 0, total_write_bytes := 0 }
        (pyOr (.vInt r1) .null) (pyOr (.vStr w1) .null)
        (pyOr (pyOr .null .null) .null) (pyOr (pyOr .null .null) .null))
      = .ok { total_reads := 0 + r1, total_writes := 0, total_read_bytes := 0,
              total_write_bytes := 0 }
    rw [addCounters_stop_writes
        { total_reads := 0, total_writes := 0, total_read_bytes := 0, total_write_bytes := 0 }
        (pyOr (.vInt r1) .null) (pyOr (.vStr w1) .null)
        (pyOr (pyOr .null .null) .null) (pyOr (pyOr .null .null) .null) r1
        (intOfValue_alias_int r1 Value.null rfl) hwv]
  have hstep2 : fsEntryStep
      { total_reads := 0 + r1, total_writes := 0, total_read_bytes := 0,
        total_write_bytes := 0 }
      (.vDict [("reads", .vInt 4), ("writes", .vInt 5),
               ("readBytes", .vInt 6), ("writeBytes", .vInt 7)])
      = .ok { total_reads := 0 + r1 + 4, total_writes := 0 + 5, total_read_bytes := 0 + 6,
              total_write_bytes := 0 + 7 } := rfl
  show ([Value.vDict [("reads", .vInt r1), ("writes", .vStr w1)],
         Value.vDict [("reads", .vInt 4), ("writes", .vInt 5),
                      ("readBytes", .vInt 6), ("writeBytes", .vInt 7)]].foldlM fsEntryStep
      { total_reads := 0, total_writes := 0, total_read_bytes := 0, total_write_bytes := 0 }
      : Except String FsTotals)
    = .ok { total_reads := r1 + 4, total_writes := 5, total_read_bytes := 6,
            total_write_bytes := 7 }
  rw [List.foldlM_cons, hstep1]
  show ([Value.vDict [("reads", .vInt 4), ("writes", .vInt 5),
                      ("readBytes", .vInt 6), ("writeBytes", .vInt 7)]].foldlM fsEntryStep
      { total_reads := 0 + r1, total_writes := 0, total_read_bytes := 0,
        total_write_bytes := 0 }
      : Except String FsTotals)
    = .ok { total_reads := r1 + 4, total_writes := 5, total_read_bytes := 6,
            total_write_bytes := 7 }
  rw [List.foldlM_cons, hstep2]
  show (Except.ok
      { total_reads := 0 + r1 + 4, total_writes := 0 + 5, total_read_bytes := 0 + 6,
        total_write_bytes := 0 + 7 } : Except String FsTotals)
    = .ok { total_reads := r1 + 4, total_writes := 5, total_read_bytes := 6,
            total_write_bytes := 7 }
  norm_num

/-- C5 witness: at the concrete bad field `"x"` the amended totals hold. -/
theorem c5_partial_device_witness :
    extract_filesystem_counters (.vDict [("filesystem", .vList
        [.vDict [("reads", .vInt 3), ("writes", .vStr "x")],
         .vDict [("reads", .vInt 4), ("writes", .vInt 5),
                 ("readBytes", .vInt 6), ("writeBytes", .vInt 7)]])])
      = .ok { total_reads := 3 + 4, total_writes := 5, total_read_bytes := 6,
              total_write_bytes := 7 } :=
  c5_partial_device 3 "x" (by decide) rfl

/-- C6, counterexample: alias resolution is by Python `or`, i.e. by
truthiness, not by priority of presence: in `{reads: 0, readsCompleted: 2}`
the higher-priority `reads` is present but falsy, so the value used is 2,
not the claimed 0. -/
theorem c6_counterexample :
    extract_filesystem_counters (.vDict [("filesystem", .vList
        [.vDict [("reads", .vInt 0), ("readsCompleted", .vInt 2)]])])
      = .ok { total_reads := 2, total_writes := 0, total_read_bytes := 0,
              total_write_bytes := 0 } ∧ (2 : Int) ≠ 0 :=
  ⟨rfl, by decide⟩

/-- C6 (amended): the extractor sums each counter across all entries,
resolving each field by alias *truthiness* priority — the higher-priority
alias wins exactly when its value is truthy; when it is 0 (falsy) the
lower-priority alias's value is used.  The spec's concrete example holds:
`[{reads:3, writes:1, readBytes:100}, {readsCompleted:2, writeBytes:50}]`
totals `(5, 1, 100, 50)`. -/
theorem c6_alias_totals (a b : Int) (ha : a ≠ 0) :
    extract_filesystem_counters (.vDict [("filesystem", .vList
        [.vDict [("reads", .vInt 3), ("writes", .vInt 1), ("readBytes", .vInt 100)],
         .vDict [("readsCompleted", .vInt 2), ("writeBytes", .vInt 50)]])])
      = .ok { total_reads := 5, total_writes := 1, total_read_bytes := 100,
              total_write_bytes := 50 } ∧
    extract_filesystem_counters (.vDict [("filesystem", .vList
        [.vDict [("reads", .vInt a), ("readsCompleted", .vInt b)]])])
      = .ok { total_reads := a, total_writes := 0, total_read_bytes := 0,
              total_write_bytes := 0 } ∧
    extract_filesystem_counters (.vDict [("filesystem", .vList
        [.vDict [("reads", .vInt 0), ("readsCompleted", .vInt b)]])])
      = .ok { total_reads := b, total_writes := 0, total_read_bytes := 0,
              total_write_bytes := 0 } := by
  have hta : truthy (.vInt a) = true := by simp [truthy, ha]
  refine ⟨rfl, ?_, ?_⟩
  · have h1 : intOfValue (pyOr (pyOr (.vInt a) (.vInt b)) (.vInt 0)) = some a := by
      rw [pyOr_pos hta (Value.vInt b), pyOr_pos hta (Value.vInt 0)]
      rfl
    have hstep : fsEntryStep
        { total_reads := 0, total_writes := 0, total_read_bytes := 0, total_write_bytes := 0 }
        (.vDict [("reads", .vInt a), ("readsCompleted", .vInt b)])
        = .ok { total_reads := 0 + a, total_writes := 0 + 0, total_read_bytes := 0 + 0,
                total_write_bytes := 0 + 0 } := by
      rw [fsEntryStep_dict]
      show Except.ok (addCounters
          { total_reads := 0, total_writes := 0, total_read_bytes := 0, total_write_bytes := 0 }
          (pyOr (.vInt a) (.vInt b)) (pyOr .null .null)
          (pyOr (pyOr .null .null) .null) (pyOr (pyOr .null .null) .null))
        = .ok { total_reads := 0 + a, total_writes := 0 + 0, total_read_bytes := 0 + 0,
                total_write_bytes := 0 + 0 }
      rw [addCounters_all
          { total_reads := 0, total_writes := 0, total_read_bytes := 0, total_write_bytes := 0 }
          (pyOr (.vInt a) (.vInt b)) (pyOr .null .null)
          (pyOr (pyOr .null .null) .null) (pyOr (pyOr .null .null) .null)
          a 0 0 0 h1 rfl rfl rfl]
    show ([Value.vDict [("reads", .vInt a), ("readsCompleted", .vInt b)]].foldlM fsEntryStep
        { total_reads := 0, total_writes := 0, total_read_bytes := 0, total_write_bytes := 0 }
        : Except String FsTotals)
      = .ok { total_reads := a, total_writes := 0, total_read_bytes := 0,
              total_write_bytes := 0 }
    rw [List.foldlM_cons, hstep]
    show (Except.ok
        { total_reads := 0 + a, total_writes := 0 + 0, total_read_bytes := 0 + 0,
          total_write_bytes := 0 + 0 } : Except String FsTotals)
      = .ok { total_reads := a, total_writes := 0, total_read_bytes := 0,
              total_write_bytes := 0 }
    norm_num
  · have h1 : intOfValue (pyOr (pyOr (.vInt 0) (.vInt b)) (.vInt 0)) = some b := by
      rw [pyOr_neg (by decide) (Value.vInt b)]
      exact intOfValue_pyOr_int b
    have hstep : fsEntryStep
        { total_reads := 0, total_writes := 0, total_read_bytes := 0, total_write_bytes := 0 }
        (.vDict [("reads", .vInt 0), ("readsCompleted", .vInt b)])
        = .ok { total_reads := 0 + b, total_writes := 0 + 0, total_read_bytes := 0 + 0,
                total_write_bytes := 0 + 0 } := by
      rw [fsEntryStep_dict]
      show Except.ok (addCounters
          { total_reads := 0, total_writes := 0, total_read_bytes := 0, total_write_bytes := 0 }
          (pyOr (.vInt 0) (.vInt b)) (pyOr .null .null)
          (pyOr (pyOr .null .null) .null) (pyOr (pyOr .null .null) .null))
        = .ok { total_reads := 0 + b, total_writes := 0 + 0, total_read_bytes := 0 + 0,
                total_write_bytes := 0 + 0 }
      rw [addCounters_all
          { total_reads := 0, total_writes := 0, total_read_bytes := 0, total_write_bytes := 0 }
          (pyOr (.vInt 0) (.vInt b)) (pyOr .null .null)
          (pyOr (pyOr .null .null) .null) (pyOr (pyOr .null .null) .null)
          b 0 0 0 h1 rfl rfl rfl]
    show ([Value.vDict [("reads", .vInt 0), ("readsCompleted", .vInt b)]].foldlM fsEntryStep
        { total_reads := 0, total_writes := 0, total_read_bytes := 0, total_write_bytes := 0 }
        : Except String FsTotals)
      = .ok { total_reads := b, total_writes := 0, total_read_bytes := 0,
              total_write_bytes := 0 }
    rw [List.foldlM_cons, hstep]
    show (Except.ok
        { total_reads := 0 + b, total_writes := 0 + 0, total_read_bytes := 0 + 0,
          total_write_bytes := 0 + 0 } : Except String FsTotals)
      = .ok { total_reads := b, total_writes := 0, total_read_bytes := 0,
              total_write_bytes := 0 }
    norm_num

/-- C6 witness: the amended alias rules evaluated at `a = 7`, `b = 9`. -/
theorem c6_alias_totals_witness :
    extract_filesystem_counters (.vDict [("filesystem", .vList
        [.vDict [("reads", .vInt 7), ("readsCompleted", .vInt 9)]])])
      = .ok { total_reads := 7, total_writes := 0, total_read_bytes := 0,
              total_write_bytes := 0 } ∧
    extract_filesystem_counters (.vDict [("filesystem", .vList
        [.vDict [("reads", .vInt 0), ("readsCompleted", .vInt 9)]])])
      = .ok { total_reads := 9, total_writes := 0, total_read_bytes := 0,
              total_write_bytes := 0 } :=
  ⟨(c6_alias_totals 7 9 (by decide)).2.1, (c6_alias_totals 7 9 (by decide)).2.2⟩

/-! ## Lemmas about deduplication and `collect_once` -/

theorem mem_addKey (k : SampleKey) (seen : List SampleKey) : k ∈ addKey k seen := by
  unfold addKey
  by_cases h : k ∈ seen
  · rw [if_pos h]; exact h
  · rw [if_neg h]; exact List.mem_append_right _ (List.mem_singleton.mpr rfl)

theorem subset_addKey (k : SampleKey) (seen : List SampleKey) : seen ⊆ addKey k seen := by
  unfold addKey
  by_cases h : k ∈ seen
  · rw [if_pos h]; exact List.Subset.refl seen
  · rw [if_neg h]; exact List.subset_append_left _ _

theorem processSample_seen_mono (collTs : Int) (cid svc img : String) (st : CState)
    (s : Value) : st.seen ⊆ (processSample collTs cid svc img st s).1.seen := by
  cases h : sampleKeyOf cid s with
  | error e => simp [processSample, h]
  | ok o =>
    cases o with
    | none => simp [processSample, h]
    | some key =>
      by_cases hk : key ∈ st.seen
      · simp [processSample, h, hk]
      · cases hb : buildRow collTs svc img key.2 s with
        | error e =>
          simp [processSample, h, hk, hb]
          exact subset_addKey key st.seen
        | ok line =>
          simp [processSample, h, hk, hb]
          exact subset_addKey key st.seen

theorem processSamples_seen_mono (collTs : Int) (cid svc img : String) :
    ∀ (ss : List Value) (st : CState),
      st.seen ⊆ (processSamples collTs cid svc img st ss).1.seen := by
  intro ss
  induction ss with
  | nil => intro st; exact List.Subset.refl _
  | cons s rest ih =>
    intro st
    have h1 := processSample_seen_mono collTs cid svc img st s
    simp only [processSamples]
    cases hp : processSample collTs cid svc img st s with
    | mk st1 r =>
      rw [hp] at h1
      cases r with
      | none => exact h1.trans (ih st1)
      | some e => exact h1

theorem processContainer_seen_mono (collTs : Int) (st : CState) (cid : String)
    (entry : Value) : st.seen ⊆ (processContainer collTs st cid entry).1.seen := by
  cases hsvc : serviceNameOf entry with
  | error e =>
    simp only [processContainer, hsvc]
    exact List.Subset.refl _
  | ok svc =>
    cases hsv : dictGetOpt entry "stats" with
    | error e =>
      simp only [processContainer, hsvc, hsv]
      exact List.Subset.refl _
    | ok sv =>
      cases himg : imageOf entry with
      | error e =>
        simp only [processContainer, hsvc, hsv, himg]
        exact List.Subset.refl _
      | ok img =>
        cases hit : pyIter (sv.getD (.vList [])) with
        | error e =>
          simp only [processContainer, hsvc, hsv, himg, hit]
          exact List.Subset.refl _
        | ok stats =>
          simp only [processContainer, hsvc, hsv, himg, hit]
          exact processSamples_seen_mono collTs cid svc img stats st

theorem processContainers_seen_mono (collTs : Int) :
    ∀ (snap : List (String × Value)) (st : CState),
      st.seen ⊆ (processContainers collTs st snap).1.seen := by
  intro snap
  induction snap with
  | nil => intro st; exact List.Subset.refl _
  | cons p rest ih =>
    intro st
    obtain ⟨cid, entry⟩ := p
    have h1 := processContainer_seen_mono collTs st cid entry
    simp only [processContainers]
    cases hp : processContainer collTs st cid entry with
    | mk st1 r =>
      rw [hp] at h1
      cases r with
      | none => exact h1.trans (ih st1)
      | some e => exact h1

theorem collect_once_seen_mono (stopFlag : Bool) (addr : String) (collTs : Int)
    (snapshot : List (String × Value)) (st : CState) :
    st.seen ⊆ (collect_once stopFlag addr collTs snapshot st).1.seen := by
  unfold collect_once
  split
  · exact List.Subset.refl _
  · cases get_cadvisor_base_url addr with
    | error e => exact List.Subset.refl _
    | ok b => exact processContainers_seen_mono collTs snapshot st

theorem processSample_skip (collTs : Int) (cid svc img : String) (st : CState)
    (s : Value) (key : SampleKey) (h : sampleKeyOf cid s = .ok (some key))
    (hk : key ∈ st.seen) :
    processSample collTs cid svc img st s = (st, none) := by
  simp [processSample, h, hk]

theorem processSample_skip_none (collTs : Int) (cid svc img : String) (st : CState)
    (s : Value) (h : sampleKeyOf cid s = .ok none) :
    processSample collTs cid svc img st s = (st, none) := by
  simp [processSample, h]

theorem processSamples_keys_seen (collTs : Int) (cid svc img : String) :
    ∀ (ss : List Value) (st st1 : CState),
      processSamples collTs cid svc img st ss = (st1, none) →
      ∀ s ∈ ss, ∃ r, sampleKeyOf cid s = .ok r ∧ ∀ k, r = some k → k ∈ st1.seen := by
  intro ss
  induction ss with
  | nil => intro st st1 h s hs; exact absurd hs (List.not_mem_nil s)
  | cons s0 rest ih =>
    intro st st1 h s hs
    simp only [processSamples] at h
    cases hp : processSample collTs cid svc img st s0 with
    | mk stm r =>
      simp only [hp] at h
      cases r with
      | some e => simp at h
      | none =>
        have h2 : processSamples collTs cid svc img stm rest = (st1, none) := h
        have hsub : stm.seen ⊆ st1.seen := by
          have hm := processSamples_seen_mono collTs cid svc img rest stm
          rw [h2] at hm
          exact hm
        rcases List.mem_cons.mp hs with rfl | hmem
        · cases hk : sampleKeyOf cid s with
          | error e =>
            simp only [processSample, hk] at hp
            simp at hp
          | ok o =>
            refine ⟨o, rfl, ?_⟩
            intro k hko
            subst hko
            by_cases hkk : k ∈ st.seen
            · have hst : stm = st := by
                rw [processSample_skip collTs cid svc img st s k hk hkk] at hp
                exact ((Prod.mk.injEq _ _ _ _).mp hp).1.symm
              exact hsub (hst ▸ hkk)
            · simp only [processSample, hk] at hp
              rw [if_neg hkk] at hp
              cases hb : buildRow collTs svc img k.2 s with
              | error e => rw [hb] at hp; simp at hp
              | ok line =>
                rw [hb] at hp
                have h1 : CState.mk (addKey k st.seen) (st.rows ++ [line]) = stm :=
                  ((Prod.mk.injEq _ _ _ _).mp hp).1
                apply hsub
                rw [← h1]
                exact mem_addKey k st.seen
        · exact ih stm st1 h2 s hmem

theorem processSamples_skip_all (collTs : Int) (cid svc img : String) :
    ∀ (ss : List Value) (st : CState),
      (∀ s ∈ ss, ∃ r, sampleKeyOf cid s = .ok r ∧ ∀ k, r = some k → k ∈ st.seen) →
      processSamples collTs cid svc img st ss = (st, none) := by
  intro ss
  induction ss with
  | nil => intro st _; rfl
  | cons s0 rest ih =>
    intro st h
    obtain ⟨r, hr, hk⟩ := h s0 (List.mem_cons_self s0 rest)
    have hskip : processSample collTs cid svc img st s0 = (st, none) := by
      cases r with
      | none => exact processSample_skip_none collTs cid svc img st s0 hr
      | some k => exact processSample_skip collTs cid svc img st s0 k hr (hk k rfl)
    simp only [processSamples]
    rw [hskip]
    exact ih st (fun s hs => h s (List.mem_cons_of_mem s0 hs))

theorem processContainer_pass2 (collTs : Int) (st st1 : CState) (cid : String)
    (entry : Value) (h : processContainer collTs st cid entry = (st1, none)) :
    ∀ st2 : CState, st1.seen ⊆ st2.seen →
      processContainer collTs st2 cid entry = (st2, none) := by
  intro st2 hsub
  cases hsvc : serviceNameOf entry with
  | error e => simp only [processContainer, hsvc] at h; simp at h
  | ok svc =>
    cases hsv : dictGetOpt entry "stats" with
    | error e => simp only [processContainer, hsvc, hsv] at h; simp at h
    | ok sv =>
      cases himg : imageOf entry with
      | error e => simp only [processContainer, hsvc, hsv, himg] at h; simp at h
      | ok img =>
        cases hit : pyIter (sv.getD (.vList [])) with
        | error e => simp only [processContainer, hsvc, hsv, himg, hit] at h; simp at h
        | ok stats =>
          simp only [processContainer, hsvc, hsv, himg, hit] at h ⊢
          apply processSamples_skip_all
          intro s hs
          obtain ⟨r, hr, hk⟩ :=
            processSamples_keys_seen collTs cid svc img stats st st1 h s hs
          exact ⟨r, hr, fun k hkr => hsub (hk k hkr)⟩

theorem processContainers_pass2 (collTs : Int) :
    ∀ (snap : List (String × Value)) (st st1 : CState),
      processContainers collTs st snap = (st1, none) →
      ∀ st2 : CState, st1.seen ⊆ st2.seen →
        processContainers collTs st2 snap = (st2, none) := by
  intro snap
  induction snap with
  | nil => intro st st1 h st2 hsub; rfl
  | cons p rest ih =>
    intro st st1 h st2 hsub
    obtain ⟨cid, entry⟩ := p
    simp only [processContainers] at h ⊢
    cases hc : processContainer collTs st cid entry with
    | mk stm r =>
      simp only [hc] at h
      cases r with
      | some e => simp at h
      | none =>
        have h1 : processContainers collTs stm rest = (st1, none) := h
        have hstm : stm.seen ⊆ st1.seen := by
          have hm := processContainers_seen_mono collTs rest stm
          rw [h1] at hm
          exact hm
        have h2 : processContainer collTs st2 cid entry = (st2, none) :=
          processContainer_pass2 collTs st stm cid entry hc st2 (hstm.trans hsub)
        rw [h2]
        exact ih stm st1 h1 st2 hsub

/-- Evaluation of `sampleKeyOf` when the timestamp field is a parseable
non-empty string. -/
theorem sampleKeyOf_str (cid : String) (s : Value) (t : String) (k : Int)
    (hts : dictGetOpt s "timestamp" = .ok (some (.vStr t)))
    (hne : t ≠ "") (hp : parseTsStr t = some k) :
    sampleKeyOf cid s = .ok (some (cid, k)) := by
  have htr : truthy (.vStr t) = true := by simp [truthy, hne]
  have step : sampleKeyOf cid s
      = (if truthy (Value.vStr t) = true
         then (pure ((parseTsStr t).map (fun j => (cid, j))) : Except String (Option SampleKey))
         else pure none) := by
    unfold sampleKeyOf
    rw [hts]
    rfl
  rw [step, if_pos htr, hp]
  rfl

/-! ## Claim C2: deduplication -/

/-- C2: the `seen_samples` set only grows — no operation removes a key —
and once a poll pass completed without a raise, feeding the same snapshot
again is a no-op: every key it contains was marked seen, so nothing is
enqueued a second time (the state, including the enqueued rows, is
unchanged).  With a single-sample snapshot this is precisely "feeding the
same key in two poll iterations enqueues exactly one row". -/
theorem c2_dedup_monotone (addr : String) (collTs : Int)
    (snapshot : List (String × Value)) (st : CState)
    (h : (collect_once false addr collTs snapshot st).2 = none) :
    st.seen ⊆ (collect_once false addr collTs snapshot st).1.seen ∧
    collect_once false addr collTs snapshot ((collect_once false addr collTs snapshot st).1)
      = ((collect_once false addr collTs snapshot st).1, none) := by
  refine ⟨collect_once_seen_mono false addr collTs snapshot st, ?_⟩
  cases hb : get_cadvisor_base_url addr with
  | error e =>
    have hc : collect_once false addr collTs snapshot st = (st, some e) := by
      unfold collect_once
      rw [hb]
      rfl
    rw [hc] at h
    simp at h
  | ok b =>
    have hc : collect_once false addr collTs snapshot st
        = processContainers collTs st snapshot := by
      unfold collect_once
      rw [hb]
      rfl
    rw [hc] at h ⊢
    cases hp : processContainers collTs st snapshot with
    | mk st1 r =>
      rw [hp] at h
      cases r with
      | some e => simp at h
      | none =>
        have hc2 : collect_once false addr collTs snapshot st1
            = processContainers collTs st1 snapshot := by
          unfold collect_once
          rw [hb]
          rfl
        show collect_once false addr collTs snapshot st1 = (st1, none)
        rw [hc2]
        exact processContainers_pass2 collTs snapshot st st1 hp st1 (List.Subset.refl _)

/-- C2 witness: one container with one timestamped sample; the first pass
enqueues exactly one row, and the pass applied again to its own result
state enqueues nothing and leaves the seen-set unchanged. -/
theorem c2_dedup_monotone_witness :
    ((collect_once false "localhost" 0
        [("c1", Value.vDict [("stats", Value.vList
          [Value.vDict [("timestamp", Value.vStr "2021-01-01T00:00:00Z")]])])]
        { seen := [], rows := [] }).1.rows.length = 1) ∧
    collect_once false "localhost" 0
        [("c1", Value.vDict [("stats", Value.vList
          [Value.vDict [("timestamp", Value.vStr "2021-01-01T00:00:00Z")]])])]
        ((collect_once false "localhost" 0
          [("c1", Value.vDict [("stats", Value.vList
            [Value.vDict [("timestamp", Value.vStr "2021-01-01T00:00:00Z")]])])]
          { seen := [], rows := [] }).1)
      = ((collect_once false "localhost" 0
          [("c1", Value.vDict [("stats", Value.vList
            [Value.vDict [("timestamp", Value.vStr "2021-01-01T00:00:00Z")]])])]
          { seen := [], rows := [] }).1, none) :=
  ⟨rfl, (c2_dedup_monotone "localhost" 0
      [("c1", Value.vDict [("stats", Value.vList
        [Value.vDict [("timestamp", Value.vStr "2021-01-01T00:00:00Z")]])])]
      { seen := [], rows := [] } rfl).2⟩

/-! ## Claim C9: mark-then-build is not atomic -/

/-- C9: the key is added to `seen_samples` (line 114) before the row is
built (lines 117-135); when row construction raises, the iteration aborts
with the key recorded as seen and no row enqueued, and any later processing
of a sample with that key skips it — the sample is never enqueued for the
rest of the process lifetime. -/
theorem c9_mark_before_build (collTs : Int) (cid svc img : String) (st : CState)
    (s : Value) (k : Int) (e : String)
    (hkey : sampleKeyOf cid s = .ok (some (cid, k)))
    (hfresh : (cid, k) ∉ st.seen)
    (hbuild : buildRow collTs svc img k s = .error e) :
    processSample collTs cid svc img st s
      = ({ seen := st.seen ++ [(cid, k)], rows := st.rows }, some e) ∧
    (cid, k) ∈ st.seen ++ [(cid, k)] ∧
    (∀ st2 : CState, (cid, k) ∈ st2.seen →
      processSample collTs cid svc img st2 s = (st2, none)) := by
  refine ⟨?_, List.mem_append_right _ (List.mem_singleton.mpr rfl),
    fun st2 hk2 => processSample_skip collTs cid svc img st2 s (cid, k) hkey hk2⟩
  simp only [processSample, hkey]
  rw [if_neg hfresh]
  rw [hbuild]
  unfold addKey
  rw [if_neg hfresh]

/-- C9 witness: a sample whose memory usage field is the non-numeric string
`"boom"`: the key is marked, the raise aborts the iteration with no row,
and a later pass over the same sample is a skip. -/
theorem c9_mark_before_build_witness :
    processSample 0 "c" "svc" "img" { seen := [], rows := [] }
        (Value.vDict [("timestamp", Value.vStr "2021-01-01T00:00:07Z"),
          ("memory", Value.vDict [("usage", Value.vStr "boom")])])
      = ({ seen := [("c", 1609459207)], rows := [] }, some "ValueError: invalid int") ∧
    processSample 0 "c" "svc" "img" { seen := [("c", 1609459207)], rows := [] }
        (Value.vDict [("timestamp", Value.vStr "2021-01-01T00:00:07Z"),
          ("memory", Value.vDict [("usage", Value.vStr "boom")])])
      = ({ seen := [("c", 1609459207)], rows := [] }, none) := by
  have h := c9_mark_before_build 0 "c" "svc" "img" { seen := [], rows := [] }
    (Value.vDict [("timestamp", Value.vStr "2021-01-01T00:00:07Z"),
      ("memory", Value.vDict [("usage", Value.vStr "boom")])])
    1609459207 "ValueError: invalid int" rfl (by decide) rfl
  exact ⟨h.1, h.2.2 { seen := [("c", 1609459207)], rows := [] } (by decide)⟩

/-! ## Claim C10: whole-second rounding collapses samples -/

/-- C10: the deduplication key uses the parsed timestamp rounded to whole
epoch seconds (line 107), so two *distinct* timestamp strings that round to
the same integer second under the same container yield the same key: only
the first sample produces a row, and the second is silently dropped. -/
theorem c10_rounding_collision (collTs : Int) (cid svc img : String) (st : CState)
    (s1 s2 : Value) (t1 t2 : String) (k : Int) (r : String)
    (hts1 : dictGetOpt s1 "timestamp" = .ok (some (.vStr t1)))
    (hts2 : dictGetOpt s2 "timestamp" = .ok (some (.vStr t2)))
    (_hne : t1 ≠ t2)
    (hp1 : parseTsStr t1 = some k)
    (hp2 : parseTsStr t2 = some k)
    (hfresh : (cid, k) ∉ st.seen)
    (hbuild : buildRow collTs svc img k s1 = .ok r) :
    processSamples collTs cid svc img st [s1, s2]
      = ({ seen := st.seen ++ [(cid, k)], rows := st.rows ++ [r] }, none) := by
  have hne1 : t1 ≠ "" := by
    intro h0
    rw [h0] at hp1
    exact Option.noConfusion hp1
  have hne2 : t2 ≠ "" := by
    intro h0
    rw [h0] at hp2
    exact Option.noConfusion hp2
  have hk1 := sampleKeyOf_str cid s1 t1 k hts1 hne1 hp1
  have hk2 := sampleKeyOf_str cid s2 t2 k hts2 hne2 hp2
  have hstep1 : processSample collTs cid svc img st s1
      = ({ seen := st.seen ++ [(cid, k)], rows := st.rows ++ [r] }, none) := by
    simp only [processSample, hk1]
    rw [if_neg hfresh]
    rw [hbuild]
    unfold addKey
    rw [if_neg hfresh]
  have hstep2 : processSample collTs cid svc img
      { seen := st.seen ++ [(cid, k)], rows := st.rows ++ [r] } s2
      = ({ seen := st.seen ++ [(cid, k)], rows := st.rows ++ [r] }, none) :=
    processSample_skip collTs cid svc img _ s2 (cid, k) hk2
      (List.mem_append_right _ (List.mem_singleton.mpr rfl))
  simp only [processSamples]
  rw [hstep1]
  show processSamples collTs cid svc img
      { seen := st.seen ++ [(cid, k)], rows := st.rows ++ [r] } [s2]
    = ({ seen := st.seen ++ [(cid, k)], rows := st.rows ++ [r] }, none)
  simp only [processSamples]
  rw [hstep2]

/-- C10 witness: `"2021-01-01T00:00:05.100000Z"` and
`"2021-01-01T00:00:05.200000Z"` are distinct but both round to epoch second
1609459205; only the first yields a row. -/
theorem c10_rounding_collision_witness :
    processSamples 0 "c" "svc" "img" { seen := [], rows := [] }
        [Value.vDict [("timestamp", Value.vStr "2021-01-01T00:00:05.100000Z")],
         Value.vDict [("timestamp", Value.vStr "2021-01-01T00:00:05.200000Z")]]
      = ({ seen := [("c", 1609459205)],
           rows := ["0,1609459205,svc,img,0.0,0,0,0,0,0,0,0,0,0,0\n"] }, none) := by
  have h := c10_rounding_collision 0 "c" "svc" "img" { seen := [], rows := [] }
    (Value.vDict [("timestamp", Value.vStr "2021-01-01T00:00:05.100000Z")])
    (Value.vDict [("timestamp", Value.vStr "2021-01-01T00:00:05.200000Z")])
    "2021-01-01T00:00:05.100000Z" "2021-01-01T00:00:05.200000Z"
    1609459205 "0,1609459205,svc,img,0.0,0,0,0,0,0,0,0,0,0,0\n"
    rfl rfl (by decide) rfl rfl (by decide) rfl
  exact h

/-! ## Claim C4: empty address and the polling loop -/

/-- C4, counterexample: with the empty address the process still runs its
polling loop.  `get_cadvisor_base_url` raises `ValueError`, but the raise
happens inside `collect_once` (line 89) and is caught by the blanket
`except` of `collect_loop` (lines 144-147): three observed iterations log
three errors and the loop continues with its state untouched — the claimed
"fatal at startup, process does not start" behavior does not occur. -/
theorem c4_counterexample :
    get_cadvisor_base_url "" = .error errNoAddress ∧
    collect_loop "" 0 [] { seen := [], rows := [] } [] 3
      = ({ seen := [], rows := [] }, [errNoAddress, errNoAddress, errNoAddress]) :=
  ⟨rfl, rfl⟩

/-- C4 (amended): an empty address makes `get_cadvisor_base_url` raise
`ValueError` on every poll iteration; `collect_loop` catches and logs the
error each tick and keeps running with unchanged state — the error is
recoverable per-iteration, not fatal at startup. -/
theorem c4_empty_address_loop (collTs : Int) (snapshot : List (String × Value))
    (st : CState) (n : Nat) :
    collect_loop "" collTs snapshot st [] n = (st, List.replicate n errNoAddress) ∧
    get_cadvisor_base_url "" = .error errNoAddress := by
  refine ⟨?_, rfl⟩
  have key : ∀ (m : Nat) (log : List String),
      collect_loop "" collTs snapshot st log m
        = (st, log ++ List.replicate m errNoAddress) := by
    intro m
    induction m with
    | zero => intro log; simp [collect_loop]
    | succ m ih =>
      intro log
      have hone : collect_once false "" collTs snapshot st = (st, some errNoAddress) := rfl
      simp only [collect_loop]
      rw [hone]
      show collect_loop "" collTs snapshot st (log ++ [errNoAddress]) m = _
      rw [ih (log ++ [errNoAddress])]
      simp [List.replicate_succ]
  simpa using key n []

/-! ## Claim C1: drain-on-shutdown -/

/-- Trace invariant: the written file followed by the pending queue is
always the initial file, the initial queue, and everything enqueued so far,
in order — pops move items from the queue to the file without loss,
duplication or reordering. -/
theorem writerRun_inv : ∀ (evs : List WriterEv) (st : WState),
    (writerRun st evs).file ++ (writerRun st evs).queue
      = st.file ++ st.queue ++ enqueuedOf evs := by
  intro evs
  induction evs with
  | nil => intro st; simp [writerRun, enqueuedOf]
  | cons e rest ih =>
    intro st
    have h1 : writerRun st (e :: rest) = writerRun (writerStep st e) rest := rfl
    rw [h1, ih (writerStep st e)]
    cases e with
    | enq line => simp [writerStep, enqueuedOf, List.append_assoc]
    | setStop => simp [writerStep, enqueuedOf, List.append_assoc]
    | pop =>
      cases hq : st.queue with
      | nil => simp [writerStep, enqueuedOf, hq]
      | cons x rest2 => simp [writerStep, enqueuedOf, hq, List.append_assoc]

/-- C1: in any interleaving of collector enqueues, writer pops and one
`stop()` in which exactly the rows `rows` were enqueued before the stop
flag was set (so the trace's enqueued items are `rows` followed by the
`""` sentinel of `stop()`), after the post-stop drain the file is the
header, the rows in order, and the empty sentinel write; the queue is
empty; and since `f.write("")` emits no bytes, the non-empty writes are
exactly the header plus the `N` rows — none lost, none duplicated,
independent of any timing.  (The poll interval and the writer's 1-second
pop timeout only influence *which* trace occurs, and the result holds for
every trace.) -/
theorem c1_drain_on_shutdown (evs : List WriterEv) (rows : List String)
    (henq : enqueuedOf evs = rows ++ [""])
    (hrows : ∀ r ∈ rows, r ≠ "") :
    (writerDrain (writerRun writerInit evs)).file = csvHeader :: (rows ++ [""]) ∧
    (writerDrain (writerRun writerInit evs)).queue = [] ∧
    (writerDrain (writerRun writerInit evs)).file.filter (fun r => !(r == ""))
      = csvHeader :: rows := by
  have hfile : (writerDrain (writerRun writerInit evs)).file
      = csvHeader :: (rows ++ [""]) := by
    show (writerRun writerInit evs).file ++ (writerRun writerInit evs).queue
      = csvHeader :: (rows ++ [""])
    rw [writerRun_inv evs writerInit, henq]
    rfl
  refine ⟨hfile, rfl, ?_⟩
  rw [hfile]
  have h1 : List.filter (fun r => !(r == "")) rows = rows :=
    List.filter_eq_self.mpr (fun a ha => by simp [hrows a ha])
  have hone : List.filter (fun r => !(r == "")) [""] = [] := rfl
  have hhd : List.filter (fun r => !(r == "")) [csvHeader] = [csvHeader] := rfl
  show List.filter (fun r => !(r == "")) ([csvHeader] ++ (rows ++ [""]))
    = csvHeader :: rows
  rw [List.filter_append, List.filter_append, h1, hone, hhd, List.append_nil]
  rfl

/-- C1 witness: two rows enqueued, one popped mid-stream, stop, then the
drain; the file is exactly the header plus the two rows (plus the
zero-byte sentinel write). -/
theorem c1_drain_on_shutdown_witness :
    (writerDrain (writerRun writerInit
        [.enq "a\n", .pop, .enq "b\n", .setStop, .pop, .pop])).file
      = csvHeader :: (["a\n", "b\n"] ++ [""]) ∧
    (writerDrain (writerRun writerInit
        [.enq "a\n", .pop, .enq "b\n", .setStop, .pop, .pop])).queue = [] ∧
    (writerDrain (writerRun writerInit
        [.enq "a\n", .pop, .enq "b\n", .setStop, .pop, .pop])).file.filter
        (fun r => !(r == ""))
      = csvHeader :: ["a\n", "b\n"] :=
  c1_drain_on_shutdown [.enq "a\n", .pop, .enq "b\n", .setStop, .pop, .pop]
    ["a\n", "b\n"] rfl (by decide)

end CadvisorCollector
